import Mathlib

/-!
Shallow embedding of `src/resource_manager.rs` from the ssao-techniques
repository: the handle-indexed resource arenas, descriptor-based creation,
bind-group-layout derivation, and the shader hot-reload path.

GPU backend (wgpu) objects are modelled by the data the repository code
derives and stores about them; the device WGSL validator and the file
system are passed as explicit oracles (`Validator`, `FileSystem`).
Operations that can panic in Rust (unwrap, out-of-bounds indexing,
explicit panic calls, uncaptured backend validation errors) return
`Option`, with `none` standing for the panic.
-/

/-- HandleType enum from resource_manager.rs lines 328-335. -/
inductive HandleType where
  | BUFFER
  | TEXTURE
  | SAMPLER
  | BINDGROUP
  | SHADER
  deriving DecidableEq, Repr

namespace RM

/-- Subset of wgpu::TextureFormat used by the repository, plus further
formats outside the format→stride table of create_texture. -/
inductive TextureFormat where
  | Rgba8UnormSrgb
  | Depth32Float
  | Rgba16Float
  | Depth16Unorm
  | Depth24Plus
  | Depth24PlusStencil8
  | Depth32FloatStencil8
  | Bgra8UnormSrgb
  | R8Unorm
  deriving DecidableEq, Repr

inductive CompareFunction where
  | Less
  | LessEqual
  | Always
  deriving DecidableEq, Repr

inductive AddressMode where
  | Repeat
  | ClampToEdge
  deriving DecidableEq, Repr

inductive FilterMode where
  | Nearest
  | Linear
  deriving DecidableEq, Repr

inductive TextureSampleType where
  | float (filterable : Bool)
  | depth
  | sint
  | uint
  deriving DecidableEq, Repr

inductive SamplerBindingType where
  | Filtering
  | NonFiltering
  | Comparison
  deriving DecidableEq, Repr

inductive VertexStepMode where
  | Vertex
  | Instance
  deriving DecidableEq, Repr

/-- Bit-set types (wgpu::BufferUsages, TextureUsages, ShaderStages) are
never inspected by the repository code; they are carried as raw numbers. -/
abbrev BufferUsages := Nat

abbrev TextureUsages := Nat

abbrev ShaderStages := Nat

-- MARK: Descriptors (resource_manager.rs lines 11-167)

structure BufferDesc where
  label : Option String
  byte_size : Nat
  usage : BufferUsages
  initial_data : Option (List Nat)
  deriving DecidableEq, Repr

structure TextureDesc where
  label : Option String
  dimensions : Nat × Nat
  mipmaps : Option Nat
  format : TextureFormat
  usage : TextureUsages
  initial_data : Option (List Nat)
  deriving DecidableEq, Repr

structure SamplerDesc where
  label : Option String
  address_mode : AddressMode
  mag_min_filter : FilterMode
  mipmaps : Option Nat
  compare : Option CompareFunction
  deriving DecidableEq, Repr

structure BindGroupLayoutDesc where
  label : Option String
  visibility : ShaderStages
  buffers : List Nat
  textures : List TextureSampleType
  samplers : List SamplerBindingType
  deriving DecidableEq, Repr

/-- Handle(usize, HandleType) from resource_manager.rs line 326; the Rust
tuple fields .0 and .1 are named idx and ty here. -/
structure Handle where
  idx : Nat
  ty : HandleType
  deriving DecidableEq, Repr

structure BindGroupDesc where
  label : Option String
  visibility : ShaderStages
  layout : BindGroupLayoutDesc
  buffers : List Handle
  textures : List Handle
  samplers : List Handle
  deriving DecidableEq, Repr

/-- wgpu::VertexAttribute is never inspected by the repository code;
modelled by its shader_location and offset fields. -/
structure VertexAttribute where
  shader_location : Nat
  offset : Nat
  deriving DecidableEq, Repr

structure VertexBufferLayout where
  array_stride : Nat
  step_mode : VertexStepMode
  attributes : List VertexAttribute
  deriving DecidableEq, Repr

structure ShaderModuleDesc where
  path : String
  entry_func : String
  deriving DecidableEq, Repr

structure ShaderPipelineDesc where
  depth_test : Option CompareFunction
  targets : List TextureFormat
  vertex_buffer_bindings : List VertexBufferLayout
  deriving DecidableEq, Repr

structure ShaderDesc where
  label : Option String
  vs : ShaderModuleDesc
  ps : Option ShaderModuleDesc
  bind_group_layouts : List BindGroupLayoutDesc
  pipeline_state : ShaderPipelineDesc
  deriving DecidableEq, Repr

-- MARK: Backend-object models

/-- wgpu buffers are zero-initialised; queue.write_buffer at offset 0
overwrites an initial segment of the contents. -/
def writeBytes (old data : List Nat) : List Nat :=
  data ++ old.drop data.length

/-- Model of the stored Buffer: the wgpu::Buffer is represented by its
size, usage and current contents. -/
structure Buffer where
  size : Nat
  usage : BufferUsages
  bytes : List Nat
  deriving DecidableEq, Repr

/-- Model of the stored Texture (resource_manager.rs lines 180-184): the
repository keeps the depth classification flag and the wgpu texture and
view, represented here by the creating format and dimensions. -/
structure Texture where
  depth : Bool
  format : TextureFormat
  dimensions : Nat × Nat
  deriving DecidableEq, Repr

structure Sampler where
  address_mode : AddressMode
  mag_min_filter : FilterMode
  compare : Option CompareFunction
  deriving DecidableEq, Repr

inductive BufferBindingType where
  | Uniform
  | Storage
  deriving DecidableEq, Repr

inductive TextureViewDimension where
  | D1
  | D2
  | D3
  deriving DecidableEq, Repr

/-- wgpu::BindingType as constructed by get_bind_group_layout. -/
inductive BindingType where
  | buffer (ty : BufferBindingType) (has_dynamic_offset : Bool)
      (min_binding_size : Option Nat)
  | texture (sample_type : TextureSampleType)
      (view_dimension : TextureViewDimension) (multisampled : Bool)
  | sampler (ty : SamplerBindingType)
  deriving DecidableEq, Repr

/-- wgpu::BindGroupLayoutEntry. -/
structure LayoutEntry where
  binding : Nat
  visibility : ShaderStages
  ty : BindingType
  deriving DecidableEq, Repr

/-- wgpu::BindingResource as used by create_bind_group: a reference into
one of the three arenas, recorded by arena index. -/
inductive BindingResource where
  | buffer (idx : Nat)
  | textureView (idx : Nat)
  | sampler (idx : Nat)
  deriving DecidableEq, Repr

/-- wgpu::BindGroupEntry. -/
structure BindGroupEntry where
  binding : Nat
  resource : BindingResource
  deriving DecidableEq, Repr

/-- Model of the stored BindGroup: the wgpu::BindGroup is represented by
the entry table it was created from. -/
structure BindGroup where
  entries : List BindGroupEntry
  deriving DecidableEq, Repr

/-- NonZeroU64::new: none exactly when the argument is zero. -/
def nonZeroU64New (n : Nat) : Option Nat :=
  if n = 0 then none else some n

-- MARK: Bind-group-layout derivation (resource_manager.rs lines 553-606)

/-- First loop of get_bind_group_layout: one uniform-buffer layout entry
per declared buffer size, binding counter threaded through. -/
def bufferLayoutEntries (visibility : ShaderStages) :
    Nat → List Nat → List LayoutEntry
  | _, [] => []
  | i, entry :: rest =>
      { binding := i, visibility := visibility,
        ty := .buffer .Uniform false (nonZeroU64New entry) } ::
        bufferLayoutEntries visibility (i + 1) rest

/-- Second loop of get_bind_group_layout: 2-D non-multisampled texture
entries of the given sample type. -/
def textureLayoutEntries (visibility : ShaderStages) :
    Nat → List TextureSampleType → List LayoutEntry
  | _, [] => []
  | i, entry :: rest =>
      { binding := i, visibility := visibility,
        ty := .texture entry .D2 false } ::
        textureLayoutEntries visibility (i + 1) rest

/-- Third loop of get_bind_group_layout: sampler entries. -/
def samplerLayoutEntries (visibility : ShaderStages) :
    Nat → List SamplerBindingType → List LayoutEntry
  | _, [] => []
  | i, entry :: rest =>
      { binding := i, visibility := visibility, ty := .sampler entry } ::
        samplerLayoutEntries visibility (i + 1) rest

/-- get_bind_group_layout: the three loops run in order sharing one
binding counter i starting at 0; the backend layout object is represented
by its entry list. -/
def get_bind_group_layout (desc : BindGroupLayoutDesc) : List LayoutEntry :=
  let bufs := bufferLayoutEntries desc.visibility 0 desc.buffers
  let texs := textureLayoutEntries desc.visibility desc.buffers.length desc.textures
  let samps := samplerLayoutEntries desc.visibility
    (desc.buffers.length + desc.textures.length) desc.samplers
  bufs ++ texs ++ samps

-- MARK: Shader build (resource_manager.rs lines 208-322)

/-- The file system oracle: read_to_string by path, none = read error. -/
abbrev FileSystem := String → Option String

/-- The device WGSL validator oracle: some message = validation error
reported for the given source, none = the source validates. -/
abbrev Validator := String → Option String

/-- Model of wgpu::RenderPipeline as assembled by Shader::new: the parts
derived from the descriptor (constant fields of the primitive and
multisample state are fixed by the code and omitted). -/
structure ColorTargetState where
  format : TextureFormat
  deriving DecidableEq, Repr

structure DepthStencilState where
  format : TextureFormat
  depth_write_enabled : Bool
  depth_compare : CompareFunction
  deriving DecidableEq, Repr

structure Pipeline where
  label : Option String
  bind_group_layouts : List (List LayoutEntry)
  vs_entry : String
  vertex_buffers : List VertexBufferLayout
  targets : List ColorTargetState
  depth_stencil : Option DepthStencilState
  fragment_entry : Option String
  deriving DecidableEq, Repr

def DEPTH_FORMAT : TextureFormat := .Depth32Float

/-- The guard at the top of Shader::new (line 215): true when a fragment
module is present and its source path differs from the vertex path. -/
def mixedFilePair (desc : ShaderDesc) : Bool :=
  match desc.ps with
  | some ps => ps.path ≠ desc.vs.path
  | none => false

structure Shader where
  desc : ShaderDesc
  internal : Pipeline
  deriving DecidableEq, Repr

/-- Shader::new: panics (none) on a mixed-file VS/PS pair, on a failed
source read (unwrap), or on a WGSL validation error (uncaptured device
error with no scope pushed); otherwise builds the pipeline from the
descriptor. -/
def shaderNew (fs : FileSystem) (validate : Validator) (desc : ShaderDesc) :
    Option Shader :=
  if mixedFilePair desc then none
  else
    match fs desc.vs.path with
    | none => none
    | some source =>
      match validate source with
      | some _ => none
      | none =>
        some
          { desc := desc
            internal :=
              { label := desc.label
                bind_group_layouts :=
                  desc.bind_group_layouts.map get_bind_group_layout
                vs_entry := desc.vs.entry_func
                vertex_buffers := desc.pipeline_state.vertex_buffer_bindings
                targets := desc.pipeline_state.targets.map
                  (fun x => { format := x })
                depth_stencil :=
                  match desc.pipeline_state.depth_test with
                  | some depth_test =>
                    some { format := .Depth32Float,
                           depth_write_enabled := true,
                           depth_compare := depth_test }
                  | none => none
                fragment_entry :=
                  match desc.ps with
                  | some ps => some ps.entry_func
                  | none => none } }

-- MARK: ResourceManager state (resource_manager.rs lines 337-373)

structure RMState where
  buffers : List Buffer
  textures : List Texture
  samplers : List Sampler
  bind_groups : List BindGroup
  shaders : List Shader
  shader_compilation_error : String
  deriving DecidableEq, Repr

def RMState.init : RMState :=
  { buffers := [], textures := [], samplers := [], bind_groups := [],
    shaders := [], shader_compilation_error := "" }

-- MARK: Creation operations

/-- create_buffer (lines 375-390): never panics. -/
def create_buffer (st : RMState) (desc : BufferDesc) : Handle × RMState :=
  let buffer : Buffer :=
    { size := desc.byte_size, usage := desc.usage,
      bytes := List.replicate desc.byte_size 0 }
  let buffer :=
    match desc.initial_data with
    | some data => { buffer with bytes := writeBytes buffer.bytes data }
    | none => buffer
  let st' := { st with buffers := st.buffers ++ [buffer] }
  (⟨st'.buffers.length - 1, .BUFFER⟩, st')

/-- The format→stride table of create_texture (lines 410-415); none is
the Unsupported-format panic. -/
def bytes_per_pixel : TextureFormat → Option Nat
  | .Rgba8UnormSrgb => some 4
  | .Depth32Float => some 4
  | .Rgba16Float => some 8
  | _ => none

/-- The depth-classification match of create_texture (lines 442-449). -/
def isDepthFormat : TextureFormat → Bool
  | .Depth16Unorm => true
  | .Depth24Plus => true
  | .Depth24PlusStencil8 => true
  | .Depth32Float => true
  | .Depth32FloatStencil8 => true
  | _ => false

/-- create_texture (lines 392-453): panics (none) on a format outside the
stride table, before the initial_data upload is even considered. -/
def create_texture (st : RMState) (desc : TextureDesc) :
    Option (Handle × RMState) :=
  match bytes_per_pixel desc.format with
  | none => none
  | some _bpp =>
    let tex : Texture :=
      { depth := isDepthFormat desc.format, format := desc.format,
        dimensions := desc.dimensions }
    let st' := { st with textures := st.textures ++ [tex] }
    some (⟨st'.textures.length - 1, .TEXTURE⟩, st')

/-- create_sampler (lines 455-478): never panics. -/
def create_sampler (st : RMState) (desc : SamplerDesc) : Handle × RMState :=
  let sampler : Sampler :=
    { address_mode := desc.address_mode,
      mag_min_filter := desc.mag_min_filter, compare := desc.compare }
  let st' := { st with samplers := st.samplers ++ [sampler] }
  (⟨st'.samplers.length - 1, .SAMPLER⟩, st')

-- MARK: Bind group construction (resource_manager.rs lines 480-522)

/-- First loop of create_bind_group: each buffer handle is resolved to
self.buffers[entry.0] (by index, with no kind check). -/
def bufferGroupEntries : Nat → List Handle → List BindGroupEntry
  | _, [] => []
  | i, entry :: rest =>
      { binding := i, resource := .buffer entry.idx } ::
        bufferGroupEntries (i + 1) rest

/-- Second loop of create_bind_group. -/
def textureGroupEntries : Nat → List Handle → List BindGroupEntry
  | _, [] => []
  | i, entry :: rest =>
      { binding := i, resource := .textureView entry.idx } ::
        textureGroupEntries (i + 1) rest

/-- Third loop of create_bind_group. -/
def samplerGroupEntries : Nat → List Handle → List BindGroupEntry
  | _, [] => []
  | i, entry :: rest =>
      { binding := i, resource := .sampler entry.idx } ::
        samplerGroupEntries (i + 1) rest

/-- Kind tag used to compare a layout entry with a bind group entry. -/
inductive EntryKind where
  | buf
  | tex
  | samp
  deriving DecidableEq, Repr

def LayoutEntry.kind (e : LayoutEntry) : EntryKind :=
  match e.ty with
  | .buffer _ _ _ => .buf
  | .texture _ _ _ => .tex
  | .sampler _ => .samp

def BindGroupEntry.kind (e : BindGroupEntry) : EntryKind :=
  match e.resource with
  | .buffer _ => .buf
  | .textureView _ => .tex
  | .sampler _ => .samp

/-- Modelled from the wgpu device contract for create_bind_group: the
entry list must cover the layout exactly — same number of entries, and
the entry at each binding must have the binding type kind the layout
declares. A violation is a validation error, which with no error scope
pushed is fatal (uncaptured-error panic). -/
def validateBindGroup (layout : List LayoutEntry)
    (entries : List BindGroupEntry) : Bool :=
  entries.length = layout.length &&
    (List.zip layout entries).all
      (fun p => p.1.binding = p.2.binding && p.1.kind = p.2.kind)

/-- create_bind_group: indexes the three arenas by raw handle index
(out-of-bounds = panic = none), builds the entry table with one shared
binding counter, then creates the backend object against the derived
layout (validation failure = fatal = none). -/
def create_bind_group (st : RMState) (desc : BindGroupDesc) :
    Option (Handle × RMState) :=
  if desc.buffers.all (fun h => h.idx < st.buffers.length) &&
      desc.textures.all (fun h => h.idx < st.textures.length) &&
      desc.samplers.all (fun h => h.idx < st.samplers.length) then
    let entries :=
      bufferGroupEntries 0 desc.buffers ++
        textureGroupEntries desc.buffers.length desc.textures ++
        samplerGroupEntries (desc.buffers.length + desc.textures.length)
          desc.samplers
    if validateBindGroup (get_bind_group_layout desc.layout) entries then
      let st' := { st with bind_groups := st.bind_groups ++ [⟨entries⟩] }
      some (⟨st'.bind_groups.length - 1, .BINDGROUP⟩, st')
    else none
  else none

/-- create_shader (lines 524-530): Shader::new then push. -/
def create_shader (fs : FileSystem) (validate : Validator) (st : RMState)
    (desc : ShaderDesc) : Option (Handle × RMState) :=
  match shaderNew fs validate desc with
  | none => none
  | some shader =>
    let st' := { st with shaders := st.shaders ++ [shader] }
    some (⟨st'.shaders.length - 1, .SHADER⟩, st')

-- MARK: Accessors (resource_manager.rs lines 532-551, 608-613)

/-- The two panics the get accessors can raise. -/
inductive Fault where
  | kindMismatch
  | indexOutOfBounds
  deriving DecidableEq, Repr

def get_buffer (st : RMState) (handle : Handle) : Except Fault Buffer :=
  if handle.ty ≠ HandleType.BUFFER then .error .kindMismatch
  else
    match st.buffers[handle.idx]? with
    | some b => .ok b
    | none => .error .indexOutOfBounds

def get_texture (st : RMState) (handle : Handle) : Except Fault Texture :=
  if handle.ty ≠ HandleType.TEXTURE then .error .kindMismatch
  else
    match st.textures[handle.idx]? with
    | some t => .ok t
    | none => .error .indexOutOfBounds

def get_shader (st : RMState) (handle : Handle) : Except Fault Shader :=
  if handle.ty ≠ HandleType.SHADER then .error .kindMismatch
  else
    match st.shaders[handle.idx]? with
    | some s => .ok s
    | none => .error .indexOutOfBounds

-- MARK: update_buffer (resource_manager.rs lines 615-618)

/-- update_buffer: writes data at offset 0 into self.buffers[handle.0];
no kind check is performed, only the raw index is used. -/
def update_buffer (st : RMState) (handle : Handle) (data : List Nat) :
    Option RMState :=
  match st.buffers[handle.idx]? with
  | none => none
  | some buf =>
    some { st with
      buffers := st.buffers.set handle.idx
        { buf with bytes := writeBytes buf.bytes data } }

-- MARK: recompile (resource_manager.rs lines 620-642)

/-- recompile: reads self.shaders[handle.0] (raw index), re-reads the
source path with unwrap (read failure = panic = none), trial-compiles the
module inside a validation error scope, and either records the error
message or clears the diagnostic and rebuilds the entry in place from the
retained descriptor. -/
def recompile (fs : FileSystem) (validate : Validator) (st : RMState)
    (handle : Handle) : Option RMState :=
  match st.shaders[handle.idx]? with
  | none => none
  | some shader =>
    match fs shader.desc.vs.path with
    | none => none
    | some source =>
      match validate source with
      | some err => some { st with shader_compilation_error := err }
      | none =>
        match shaderNew fs validate shader.desc with
        | none => none
        | some sh =>
          some { st with shader_compilation_error := "",
                         shaders := st.shaders.set handle.idx sh }

-- MARK: Creation traces

/-- One create_* call on the manager, with its descriptor. -/
inductive CreateOp where
  | buffer (desc : BufferDesc)
  | texture (desc : TextureDesc)
  | sampler (desc : SamplerDesc)
  | bindGroup (desc : BindGroupDesc)
  | shader (desc : ShaderDesc)
  deriving DecidableEq, Repr

def CreateOp.kind : CreateOp → HandleType
  | .buffer _ => .BUFFER
  | .texture _ => .TEXTURE
  | .sampler _ => .SAMPLER
  | .bindGroup _ => .BINDGROUP
  | .shader _ => .SHADER

def runCreate (fs : FileSystem) (v : Validator) (st : RMState) :
    CreateOp → Option (Handle × RMState)
  | .buffer d => some (create_buffer st d)
  | .texture d => create_texture st d
  | .sampler d => some (create_sampler st d)
  | .bindGroup d => create_bind_group st d
  | .shader d => create_shader fs v st d

/-- Run a sequence of create_* calls, collecting the returned handles;
none as soon as one call panics. -/
def runCreates (fs : FileSystem) (v : Validator) :
    RMState → List CreateOp → Option (List Handle × RMState)
  | st, [] => some ([], st)
  | st, op :: ops =>
    match runCreate fs v st op with
    | none => none
    | some (h, st') =>
      match runCreates fs v st' ops with
      | none => none
      | some (hs, stf) => some (h :: hs, stf)

/-- Length of the arena of a given kind. -/
def arenaLen (k : HandleType) (st : RMState) : Nat :=
  match k with
  | .BUFFER => st.buffers.length
  | .TEXTURE => st.textures.length
  | .SAMPLER => st.samplers.length
  | .BINDGROUP => st.bind_groups.length
  | .SHADER => st.shaders.length

/-- Modelled from the spec (section 8, monotonic allocation), for
comparison with runCreates: each call returns a handle tagged with the
kind of the call whose index is the count of creations of that same kind
made so far, the per-kind counters starting from the given values. -/
def specHandlesAux (counts : HandleType → Nat) : List CreateOp → List Handle
  | [] => []
  | op :: ops =>
    ⟨counts op.kind, op.kind⟩ ::
      specHandlesAux
        (fun k => if k = op.kind then counts k + 1 else counts k) ops

/-- Modelled from the spec: the handles a fresh manager is specified to
return for a sequence of create_* calls. -/
def specHandles (ops : List CreateOp) : List Handle :=
  specHandlesAux (fun _ => 0) ops

-- MARK: Concrete fixtures used by the witness theorems

def fsW : FileSystem := fun p => if p = "shader.wgsl" then some "code" else none

def valW : Validator := fun _ => none

def fsNoneW : FileSystem := fun _ => none

def bufferDescW : BufferDesc :=
  { label := none, byte_size := 0, usage := 0, initial_data := none }

def bufferW : Buffer := { size := 0, usage := 0, bytes := [] }

def shaderDescW : ShaderDesc :=
  { label := none,
    vs := { path := "shader.wgsl", entry_func := "vs_main" },
    ps := none,
    bind_group_layouts := [],
    pipeline_state :=
      { depth_test := none, targets := [], vertex_buffer_bindings := [] } }

def pipelineW : Pipeline :=
  { label := none, bind_group_layouts := [], vs_entry := "vs_main",
    vertex_buffers := [], targets := [], depth_stencil := none,
    fragment_entry := none }

def shaderW : Shader := { desc := shaderDescW, internal := pipelineW }

end RM

/-! Theorems. -/

namespace RM

/-- Claim C6: create_texture derives the per-pixel byte stride from the
format via the closed table Rgba8UnormSrgb→4, Depth32Float→4,
Rgba16Float→8, and for every other format it fails fatally with the
unsupported-format panic, for every state and every descriptor carrying
that format — in particular also when initial_data is absent. -/
theorem create_texture_format_table :
    bytes_per_pixel .Rgba8UnormSrgb = some 4 ∧
    bytes_per_pixel .Depth32Float = some 4 ∧
    bytes_per_pixel .Rgba16Float = some 8 ∧
    ∀ (fmt : TextureFormat), fmt ≠ .Rgba8UnormSrgb → fmt ≠ .Depth32Float →
      fmt ≠ .Rgba16Float →
      bytes_per_pixel fmt = none ∧
      ∀ (st : RMState) (desc : TextureDesc), desc.format = fmt →
        create_texture st desc = none := by
  refine ⟨rfl, rfl, rfl, ?_⟩
  intro fmt h1 h2 h3
  have hb : bytes_per_pixel fmt = none := by
    cases fmt <;> simp_all [bytes_per_pixel]
  refine ⟨hb, ?_⟩
  intro st desc hd
  simp [create_texture, hd, hb]

def texDescW : TextureDesc :=
  { label := none, dimensions := (1, 1), mipmaps := none,
    format := .Depth16Unorm, usage := 0, initial_data := none }

theorem create_texture_format_table_witness :
    bytes_per_pixel .Depth16Unorm = none ∧
    create_texture RMState.init texDescW = none := by
  have h :=
    create_texture_format_table.2.2.2 .Depth16Unorm
      (by decide) (by decide) (by decide)
  exact ⟨h.1, h.2 RMState.init texDescW rfl⟩

/-- Claim C7: every texture successfully created by create_texture stores
the depth classification flag, and the flag is true exactly when the
requested format is one of the five recognized depth/depth-stencil
formats. -/
theorem create_texture_depth_flag :
    ∀ (st : RMState) (desc : TextureDesc) (h : Handle) (st' : RMState),
      create_texture st desc = some (h, st') →
      st'.textures[h.idx]? =
        some { depth := isDepthFormat desc.format, format := desc.format,
               dimensions := desc.dimensions } ∧
      (isDepthFormat desc.format = true ↔
        desc.format = .Depth16Unorm ∨ desc.format = .Depth24Plus ∨
        desc.format = .Depth24PlusStencil8 ∨ desc.format = .Depth32Float ∨
        desc.format = .Depth32FloatStencil8) := by
  intro st desc h st' heq
  constructor
  · unfold create_texture at heq
    cases hbp : bytes_per_pixel desc.format with
    | none => rw [hbp] at heq; exact absurd heq (by simp)
    | some bpp =>
      rw [hbp] at heq
      simp only [Option.some.injEq, Prod.mk.injEq] at heq
      obtain ⟨hh, hst⟩ := heq
      subst hst
      rw [← hh]
      simp [List.getElem?_concat_length]
  · cases desc.format <;> simp [isDepthFormat]

def texDescW7 : TextureDesc :=
  { label := none, dimensions := (1, 1), mipmaps := none,
    format := .Depth32Float, usage := 0, initial_data := none }

theorem create_texture_depth_flag_witness :
    ({ RMState.init with textures :=
        [{ depth := true, format := .Depth32Float,
           dimensions := (1, 1) }] } : RMState).textures[0]? =
      some { depth := isDepthFormat texDescW7.format,
             format := texDescW7.format,
             dimensions := texDescW7.dimensions } ∧
    (isDepthFormat texDescW7.format = true ↔
      texDescW7.format = .Depth16Unorm ∨ texDescW7.format = .Depth24Plus ∨
      texDescW7.format = .Depth24PlusStencil8 ∨
      texDescW7.format = .Depth32Float ∨
      texDescW7.format = .Depth32FloatStencil8) :=
  create_texture_depth_flag RMState.init texDescW7 ⟨0, .TEXTURE⟩
    { RMState.init with textures :=
        [{ depth := true, format := .Depth32Float, dimensions := (1, 1) }] }
    rfl

/-- Claim C8: create_shader fails fatally when a fragment module is
present whose source path differs from the vertex path; a descriptor with
no fragment module, or with both modules naming the same path, passes the
same-file check. -/
theorem shader_same_file_check :
    ∀ (fs : FileSystem) (validate : Validator) (st : RMState)
      (desc : ShaderDesc),
      (∀ ps, desc.ps = some ps → ps.path ≠ desc.vs.path →
        shaderNew fs validate desc = none ∧
        create_shader fs validate st desc = none) ∧
      (desc.ps = none → mixedFilePair desc = false) ∧
      (∀ ps, desc.ps = some ps → ps.path = desc.vs.path →
        mixedFilePair desc = false) := by
  intro fs validate st desc
  refine ⟨?_, ?_, ?_⟩
  · intro ps hps hne
    have hmix : mixedFilePair desc = true := by
      simp [mixedFilePair, hps, hne]
    have hsn : shaderNew fs validate desc = none := by
      simp [shaderNew, hmix]
    exact ⟨hsn, by simp [create_shader, hsn]⟩
  · intro hps
    simp [mixedFilePair, hps]
  · intro ps hps hpe
    simp [mixedFilePair, hps, hpe]

def shaderDescW8 : ShaderDesc :=
  { shaderDescW with
    ps := some { path := "other.wgsl", entry_func := "ps_main" } }

theorem shader_same_file_check_witness :
    (shaderNew fsW valW shaderDescW8 = none ∧
      create_shader fsW valW RMState.init shaderDescW8 = none) ∧
    mixedFilePair shaderDescW = false :=
  ⟨(shader_same_file_check fsW valW RMState.init shaderDescW8).1
      { path := "other.wgsl", entry_func := "ps_main" } rfl (by decide),
    (shader_same_file_check fsW valW RMState.init shaderDescW).2.1 rfl⟩

/-- Claim C9: update_buffer performs no handle-kind check — it resolves
the raw index into the buffer arena, so for any handle whose index is in
range it writes the data at offset 0 into the buffer stored at that
index, whatever the kind tag of the handle is. -/
theorem update_buffer_no_kind_check :
    ∀ (st : RMState) (handle : Handle) (data : List Nat) (buf : Buffer),
      st.buffers[handle.idx]? = some buf →
      (∀ ty, update_buffer st ⟨handle.idx, ty⟩ data =
        update_buffer st handle data) ∧
      update_buffer st handle data =
        some { st with buffers := st.buffers.set handle.idx ({ buf with bytes := writeBytes buf.bytes data }) } := by
  intro st handle data buf hget
  constructor
  · intro ty
    simp [update_buffer]
  · simp [update_buffer, hget]

theorem update_buffer_no_kind_check_witness :
    update_buffer { RMState.init with buffers := [bufferW] }
        ⟨0, .TEXTURE⟩ [] =
      some { RMState.init with buffers :=
        [{ bufferW with bytes := writeBytes bufferW.bytes [] }] } := by
  have h :=
    update_buffer_no_kind_check { RMState.init with buffers := [bufferW] }
      ⟨0, .TEXTURE⟩ [] bufferW rfl
  exact h.2

/-- Claim C10: recompile re-reads the retained source path with an
unguarded unwrap — whenever the read fails, the call panics before the
trial compile, so no post-state exists and in particular the diagnostic
string is never updated with the read error. -/
theorem recompile_read_failure :
    ∀ (fs : FileSystem) (validate : Validator) (st : RMState) (h : Handle)
      (shader : Shader),
      st.shaders[h.idx]? = some shader →
      fs shader.desc.vs.path = none →
      recompile fs validate st h = none := by
  intro fs validate st h shader hget hfs
  simp [recompile, hget, hfs]

theorem recompile_read_failure_witness :
    recompile fsNoneW valW { RMState.init with shaders := [shaderW] }
      ⟨0, .SHADER⟩ = none :=
  recompile_read_failure fsNoneW valW
    { RMState.init with shaders := [shaderW] } ⟨0, .SHADER⟩ shaderW rfl rfl

/-- One create_* call returns a handle tagged with the kind of the call
whose index is the current length of that arena, and grows exactly that
arena by one. -/
lemma runCreate_step (fs : FileSystem) (v : Validator) (st : RMState)
    (op : CreateOp) (h : Handle) (st' : RMState)
    (heq : runCreate fs v st op = some (h, st')) :
    h = ⟨arenaLen op.kind st, op.kind⟩ ∧
    (∀ k, arenaLen k st' =
      if k = op.kind then arenaLen k st + 1 else arenaLen k st) := by
  cases op with
  | buffer d =>
    have hp : create_buffer st d = (h, st') := by
      simpa [runCreate] using heq
    have hh : h = (create_buffer st d).1 := by rw [hp]
    have hst : st' = (create_buffer st d).2 := by rw [hp]
    subst hh hst
    constructor
    · simp [create_buffer, CreateOp.kind, arenaLen]
    · intro k
      cases k <;> simp [create_buffer, CreateOp.kind, arenaLen]
  | texture d =>
    simp only [runCreate] at heq
    unfold create_texture at heq
    cases hbp : bytes_per_pixel d.format with
    | none => rw [hbp] at heq; exact absurd heq (by simp)
    | some bpp =>
      rw [hbp] at heq
      simp only [Option.some.injEq, Prod.mk.injEq] at heq
      obtain ⟨hh, hst⟩ := heq
      subst hst
      constructor
      · rw [← hh]; simp [CreateOp.kind, arenaLen]
      · intro k
        cases k <;> simp [CreateOp.kind, arenaLen]
  | sampler d =>
    have hp : create_sampler st d = (h, st') := by
      simpa [runCreate] using heq
    have hh : h = (create_sampler st d).1 := by rw [hp]
    have hst : st' = (create_sampler st d).2 := by rw [hp]
    subst hh hst
    constructor
    · simp [create_sampler, CreateOp.kind, arenaLen]
    · intro k
      cases k <;> simp [create_sampler, CreateOp.kind, arenaLen]
  | bindGroup d =>
    simp only [runCreate] at heq
    unfold create_bind_group at heq
    split at heq
    · dsimp only at heq
      split at heq
      · simp only [Option.some.injEq, Prod.mk.injEq] at heq
        obtain ⟨hh, hst⟩ := heq
        subst hst
        constructor
        · rw [← hh]; simp [CreateOp.kind, arenaLen]
        · intro k
          cases k <;> simp [CreateOp.kind, arenaLen]
      · exact absurd heq (by simp)
    · exact absurd heq (by simp)
  | shader d =>
    simp only [runCreate] at heq
    unfold create_shader at heq
    cases hsn : shaderNew fs v d with
    | none => rw [hsn] at heq; exact absurd heq (by simp)
    | some sh =>
      rw [hsn] at heq
      simp only [Option.some.injEq, Prod.mk.injEq] at heq
      obtain ⟨hh, hst⟩ := heq
      subst hst
      constructor
      · rw [← hh]; simp [CreateOp.kind, arenaLen]
      · intro k
        cases k <;> simp [CreateOp.kind, arenaLen]

/-- Every create_* call leaves the entries already present in the buffer,
texture and shader arenas untouched (the arenas are append-only). -/
lemma runCreate_preserves (fs : FileSystem) (v : Validator) (st : RMState)
    (op : CreateOp) (h : Handle) (st' : RMState)
    (heq : runCreate fs v st op = some (h, st')) :
    (∀ i, i < st.buffers.length → st'.buffers[i]? = st.buffers[i]?) ∧
    (∀ i, i < st.textures.length → st'.textures[i]? = st.textures[i]?) ∧
    (∀ i, i < st.shaders.length → st'.shaders[i]? = st.shaders[i]?) := by
  cases op with
  | buffer d =>
    have hp : create_buffer st d = (h, st') := by
      simpa [runCreate] using heq
    have hst : st' = (create_buffer st d).2 := by rw [hp]
    subst hst
    obtain ⟨b, hb⟩ : ∃ b, (create_buffer st d).2.buffers = st.buffers ++ [b] :=
      ⟨_, rfl⟩
    refine ⟨?_, fun i _ => rfl, fun i _ => rfl⟩
    intro i hi
    rw [hb, List.getElem?_append_left hi]
  | texture d =>
    simp only [runCreate] at heq
    unfold create_texture at heq
    cases hbp : bytes_per_pixel d.format with
    | none => rw [hbp] at heq; exact absurd heq (by simp)
    | some bpp =>
      rw [hbp] at heq
      simp only [Option.some.injEq, Prod.mk.injEq] at heq
      obtain ⟨-, hst⟩ := heq
      subst hst
      refine ⟨fun i _ => rfl, ?_, fun i _ => rfl⟩
      intro i hi
      exact List.getElem?_append_left hi
  | sampler d =>
    have hp : create_sampler st d = (h, st') := by
      simpa [runCreate] using heq
    have hst : st' = (create_sampler st d).2 := by rw [hp]
    subst hst
    exact ⟨fun i _ => rfl, fun i _ => rfl, fun i _ => rfl⟩
  | bindGroup d =>
    simp only [runCreate] at heq
    unfold create_bind_group at heq
    split at heq
    · dsimp only at heq
      split at heq
      · simp only [Option.some.injEq, Prod.mk.injEq] at heq
        obtain ⟨-, hst⟩ := heq
        subst hst
        exact ⟨fun i _ => rfl, fun i _ => rfl, fun i _ => rfl⟩
      · exact absurd heq (by simp)
    · exact absurd heq (by simp)
  | shader d =>
    simp only [runCreate] at heq
    unfold create_shader at heq
    cases hsn : shaderNew fs v d with
    | none => rw [hsn] at heq; exact absurd heq (by simp)
    | some sh =>
      rw [hsn] at heq
      simp only [Option.some.injEq, Prod.mk.injEq] at heq
      obtain ⟨-, hst⟩ := heq
      subst hst
      refine ⟨fun i _ => rfl, fun i _ => rfl, ?_⟩
      intro i hi
      exact List.getElem?_append_left hi

/-- Arena entries survive any successful sequence of create_* calls. -/
lemma runCreates_preserves (fs : FileSystem) (v : Validator) :
    ∀ (ops : List CreateOp) (st : RMState) (hs : List Handle)
      (stf : RMState), runCreates fs v st ops = some (hs, stf) →
      (∀ i, i < st.buffers.length → stf.buffers[i]? = st.buffers[i]?) ∧
      (∀ i, i < st.textures.length → stf.textures[i]? = st.textures[i]?) ∧
      (∀ i, i < st.shaders.length → stf.shaders[i]? = st.shaders[i]?) := by
  intro ops
  induction ops with
  | nil =>
    intro st hs stf heq
    simp only [runCreates, Option.some.injEq, Prod.mk.injEq] at heq
    obtain ⟨-, hst⟩ := heq
    subst hst
    exact ⟨fun i _ => rfl, fun i _ => rfl, fun i _ => rfl⟩
  | cons op ops ih =>
    intro st hs stf heq
    unfold runCreates at heq
    split at heq
    · exact absurd heq (by simp)
    · rename_i h st' h1
      split at heq
      · exact absurd heq (by simp)
      · rename_i hs' stf' h2
        simp only [Option.some.injEq, Prod.mk.injEq] at heq
        obtain ⟨-, hstf⟩ := heq
        subst hstf
        obtain ⟨pb, pt, ps⟩ := runCreate_preserves fs v st op h st' h1
        obtain ⟨qb, qt, qs⟩ := ih st' hs' stf' h2
        have hmono := (runCreate_step fs v st op h st' h1).2
        have lb : st.buffers.length ≤ st'.buffers.length := by
          have hk := hmono HandleType.BUFFER
          simp only [arenaLen] at hk
          split at hk <;> omega
        have lt' : st.textures.length ≤ st'.textures.length := by
          have hk := hmono HandleType.TEXTURE
          simp only [arenaLen] at hk
          split at hk <;> omega
        have ls : st.shaders.length ≤ st'.shaders.length := by
          have hk := hmono HandleType.SHADER
          simp only [arenaLen] at hk
          split at hk <;> omega
        refine ⟨?_, ?_, ?_⟩
        · intro i hi
          rw [qb i (lt_of_lt_of_le hi lb), pb i hi]
        · intro i hi
          rw [qt i (lt_of_lt_of_le hi lt'), pt i hi]
        · intro i hi
          rw [qs i (lt_of_lt_of_le hi ls), ps i hi]

/-- Claim C3: each get accessor signals the fatal kind-mismatch fault
exactly when the handle kind tag differs from the requested kind; with a
matching kind and an index backed by an arena entry, the accessor returns
that entry — and the final conjunct shows the entry at a given index is
the one the creating call installed, because later create_* calls never
disturb existing arena entries. -/
theorem get_accessors_spec :
    ∀ (st : RMState) (h : Handle),
      (get_buffer st h = .error .kindMismatch ↔ h.ty ≠ .BUFFER) ∧
      (get_texture st h = .error .kindMismatch ↔ h.ty ≠ .TEXTURE) ∧
      (get_shader st h = .error .kindMismatch ↔ h.ty ≠ .SHADER) ∧
      (∀ buf, h.ty = .BUFFER → st.buffers[h.idx]? = some buf →
        get_buffer st h = .ok buf) ∧
      (∀ tex, h.ty = .TEXTURE → st.textures[h.idx]? = some tex →
        get_texture st h = .ok tex) ∧
      (∀ sh, h.ty = .SHADER → st.shaders[h.idx]? = some sh →
        get_shader st h = .ok sh) ∧
      (∀ fs v ops hs stf, runCreates fs v st ops = some (hs, stf) →
        (∀ i, i < st.buffers.length → stf.buffers[i]? = st.buffers[i]?) ∧
        (∀ i, i < st.textures.length → stf.textures[i]? = st.textures[i]?) ∧
        (∀ i, i < st.shaders.length → stf.shaders[i]? = st.shaders[i]?)) := by
  intro st h
  refine ⟨?_, ?_, ?_, ?_, ?_, ?_, ?_⟩
  · by_cases hty : h.ty = HandleType.BUFFER
    · simp only [get_buffer, hty]
      cases hb : st.buffers[h.idx]? <;> simp
    · simp [get_buffer, hty]
  · by_cases hty : h.ty = HandleType.TEXTURE
    · simp only [get_texture, hty]
      cases hb : st.textures[h.idx]? <;> simp
    · simp [get_texture, hty]
  · by_cases hty : h.ty = HandleType.SHADER
    · simp only [get_shader, hty]
      cases hb : st.shaders[h.idx]? <;> simp
    · simp [get_shader, hty]
  · intro buf hty hget
    simp [get_buffer, hty, hget]
  · intro tex hty hget
    simp [get_texture, hty, hget]
  · intro sh hty hget
    simp [get_shader, hty, hget]
  · intro fs v ops hs stf heq
    exact runCreates_preserves fs v ops st hs stf heq

theorem get_accessors_spec_witness :
    get_buffer { RMState.init with buffers := [bufferW] } ⟨0, .SHADER⟩ =
      .error .kindMismatch ∧
    get_buffer { RMState.init with buffers := [bufferW] } ⟨0, .BUFFER⟩ =
      .ok bufferW := by
  have h1 :=
    (get_accessors_spec { RMState.init with buffers := [bufferW] }
      ⟨0, .SHADER⟩).1.mpr (by decide)
  have h2 :=
    (get_accessors_spec { RMState.init with buffers := [bufferW] }
      ⟨0, .BUFFER⟩).2.2.2.1 bufferW rfl rfl
  exact ⟨h1, h2⟩

lemma bufferLayoutEntries_length (vis : ShaderStages) :
    ∀ (l : List Nat) (i : Nat), (bufferLayoutEntries vis i l).length = l.length := by
  intro l
  induction l with
  | nil => intro i; rfl
  | cons x rest ih => intro i; simp [bufferLayoutEntries, ih]

lemma textureLayoutEntries_length (vis : ShaderStages) :
    ∀ (l : List TextureSampleType) (i : Nat),
      (textureLayoutEntries vis i l).length = l.length := by
  intro l
  induction l with
  | nil => intro i; rfl
  | cons x rest ih => intro i; simp [textureLayoutEntries, ih]

lemma samplerLayoutEntries_length (vis : ShaderStages) :
    ∀ (l : List SamplerBindingType) (i : Nat),
      (samplerLayoutEntries vis i l).length = l.length := by
  intro l
  induction l with
  | nil => intro i; rfl
  | cons x rest ih => intro i; simp [samplerLayoutEntries, ih]

lemma bufferLayoutEntries_get (vis : ShaderStages) :
    ∀ (l : List Nat) (i j b : Nat), l[j]? = some b →
      (bufferLayoutEntries vis i l)[j]? =
        some ⟨i + j, vis, .buffer .Uniform false (nonZeroU64New b)⟩ := by
  intro l
  induction l with
  | nil => intro i j b hb; simp at hb
  | cons x rest ih =>
    intro i j b hb
    cases j with
    | zero =>
      simp only [List.getElem?_cons_zero, Option.some.injEq] at hb
      subst hb
      simp [bufferLayoutEntries]
    | succ j =>
      rw [List.getElem?_cons_succ] at hb
      have hstep : bufferLayoutEntries vis i (x :: rest) =
          { binding := i, visibility := vis,
            ty := .buffer .Uniform false (nonZeroU64New x) } ::
            bufferLayoutEntries vis (i + 1) rest := rfl
      rw [hstep, List.getElem?_cons_succ, ih (i + 1) j b hb]
      have harith : i + 1 + j = i + (j + 1) := by omega
      rw [harith]

lemma textureLayoutEntries_get (vis : ShaderStages) :
    ∀ (l : List TextureSampleType) (i j : Nat) (t : TextureSampleType),
      l[j]? = some t →
      (textureLayoutEntries vis i l)[j]? =
        some ⟨i + j, vis, .texture t .D2 false⟩ := by
  intro l
  induction l with
  | nil => intro i j t ht; simp at ht
  | cons x rest ih =>
    intro i j t ht
    cases j with
    | zero =>
      simp only [List.getElem?_cons_zero, Option.some.injEq] at ht
      subst ht
      simp [textureLayoutEntries]
    | succ j =>
      rw [List.getElem?_cons_succ] at ht
      have hstep : textureLayoutEntries vis i (x :: rest) =
          { binding := i, visibility := vis, ty := .texture x .D2 false } ::
            textureLayoutEntries vis (i + 1) rest := rfl
      rw [hstep, List.getElem?_cons_succ, ih (i + 1) j t ht]
      have harith : i + 1 + j = i + (j + 1) := by omega
      rw [harith]

lemma samplerLayoutEntries_get (vis : ShaderStages) :
    ∀ (l : List SamplerBindingType) (i j : Nat) (sb : SamplerBindingType),
      l[j]? = some sb →
      (samplerLayoutEntries vis i l)[j]? =
        some ⟨i + j, vis, .sampler sb⟩ := by
  intro l
  induction l with
  | nil => intro i j sb hs; simp at hs
  | cons x rest ih =>
    intro i j sb hs
    cases j with
    | zero =>
      simp only [List.getElem?_cons_zero, Option.some.injEq] at hs
      subst hs
      simp [samplerLayoutEntries]
    | succ j =>
      rw [List.getElem?_cons_succ] at hs
      have hstep : samplerLayoutEntries vis i (x :: rest) =
          { binding := i, visibility := vis, ty := .sampler x } ::
            samplerLayoutEntries vis (i + 1) rest := rfl
      rw [hstep, List.getElem?_cons_succ, ih (i + 1) j sb hs]
      have harith : i + 1 + j = i + (j + 1) := by omega
      rw [harith]

lemma bufferLayoutEntries_binding (vis : ShaderStages) :
    ∀ (l : List Nat) (i j : Nat) (e : LayoutEntry),
      (bufferLayoutEntries vis i l)[j]? = some e →
      e.binding = i + j ∧ e.visibility = vis := by
  intro l
  induction l with
  | nil => intro i j e he; simp [bufferLayoutEntries] at he
  | cons x rest ih =>
    intro i j e he
    cases j with
    | zero =>
      have hstep : bufferLayoutEntries vis i (x :: rest) =
          { binding := i, visibility := vis,
            ty := .buffer .Uniform false (nonZeroU64New x) } ::
            bufferLayoutEntries vis (i + 1) rest := rfl
      rw [hstep, List.getElem?_cons_zero] at he
      obtain rfl : _ = e := Option.some.inj he
      exact ⟨(Nat.add_zero i).symm, rfl⟩
    | succ j =>
      have hstep : bufferLayoutEntries vis i (x :: rest) =
          { binding := i, visibility := vis,
            ty := .buffer .Uniform false (nonZeroU64New x) } ::
            bufferLayoutEntries vis (i + 1) rest := rfl
      rw [hstep, List.getElem?_cons_succ] at he
      obtain ⟨hb, hv⟩ := ih (i + 1) j e he
      exact ⟨by omega, hv⟩

lemma textureLayoutEntries_binding (vis : ShaderStages) :
    ∀ (l : List TextureSampleType) (i j : Nat) (e : LayoutEntry),
      (textureLayoutEntries vis i l)[j]? = some e →
      e.binding = i + j ∧ e.visibility = vis := by
  intro l
  induction l with
  | nil => intro i j e he; simp [textureLayoutEntries] at he
  | cons x rest ih =>
    intro i j e he
    cases j with
    | zero =>
      have hstep : textureLayoutEntries vis i (x :: rest) =
          { binding := i, visibility := vis, ty := .texture x .D2 false } ::
            textureLayoutEntries vis (i + 1) rest := rfl
      rw [hstep, List.getElem?_cons_zero] at he
      obtain rfl : _ = e := Option.some.inj he
      exact ⟨(Nat.add_zero i).symm, rfl⟩
    | succ j =>
      have hstep : textureLayoutEntries vis i (x :: rest) =
          { binding := i, visibility := vis, ty := .texture x .D2 false } ::
            textureLayoutEntries vis (i + 1) rest := rfl
      rw [hstep, List.getElem?_cons_succ] at he
      obtain ⟨hb, hv⟩ := ih (i + 1) j e he
      exact ⟨by omega, hv⟩

lemma samplerLayoutEntries_binding (vis : ShaderStages) :
    ∀ (l : List SamplerBindingType) (i j : Nat) (e : LayoutEntry),
      (samplerLayoutEntries vis i l)[j]? = some e →
      e.binding = i + j ∧ e.visibility = vis := by
  intro l
  induction l with
  | nil => intro i j e he; simp [samplerLayoutEntries] at he
  | cons x rest ih =>
    intro i j e he
    cases j with
    | zero =>
      have hstep : samplerLayoutEntries vis i (x :: rest) =
          { binding := i, visibility := vis, ty := .sampler x } ::
            samplerLayoutEntries vis (i + 1) rest := rfl
      rw [hstep, List.getElem?_cons_zero] at he
      obtain rfl : _ = e := Option.some.inj he
      exact ⟨(Nat.add_zero i).symm, rfl⟩
    | succ j =>
      have hstep : samplerLayoutEntries vis i (x :: rest) =
          { binding := i, visibility := vis, ty := .sampler x } ::
            samplerLayoutEntries vis (i + 1) rest := rfl
      rw [hstep, List.getElem?_cons_succ] at he
      obtain ⟨hb, hv⟩ := ih (i + 1) j e he
      exact ⟨by omega, hv⟩

/-- Claim C5: layout derivation walks buffers, then textures, then
samplers, assigning binding indices from one shared counter, so the entry
at position j always carries binding index j; buffer entries become
uniform-buffer bindings with the supplied byte count as minimum binding
size (through NonZeroU64::new, so a zero count gives no minimum), texture
entries 2-D non-multisampled bindings of the given sample type, sampler
entries sampler bindings of the given binding type. -/
theorem get_bind_group_layout_spec :
    ∀ (desc : BindGroupLayoutDesc),
      (get_bind_group_layout desc).length =
        desc.buffers.length + desc.textures.length + desc.samplers.length ∧
      (∀ (j : Nat) (e : LayoutEntry),
        (get_bind_group_layout desc)[j]? = some e →
        e.binding = j ∧ e.visibility = desc.visibility) ∧
      (∀ (i b : Nat), desc.buffers[i]? = some b →
        (get_bind_group_layout desc)[i]? =
          some ⟨i, desc.visibility, .buffer .Uniform false (nonZeroU64New b)⟩) ∧
      (∀ (j : Nat) (t : TextureSampleType), desc.textures[j]? = some t →
        (get_bind_group_layout desc)[desc.buffers.length + j]? =
          some ⟨desc.buffers.length + j, desc.visibility,
            .texture t .D2 false⟩) ∧
      (∀ (k : Nat) (sb : SamplerBindingType), desc.samplers[k]? = some sb →
        (get_bind_group_layout desc)[desc.buffers.length +
            desc.textures.length + k]? =
          some ⟨desc.buffers.length + desc.textures.length + k,
            desc.visibility, .sampler sb⟩) := by
  intro desc
  have lA := bufferLayoutEntries_length desc.visibility desc.buffers 0
  have lB := textureLayoutEntries_length desc.visibility desc.textures
    desc.buffers.length
  have lC := samplerLayoutEntries_length desc.visibility desc.samplers
    (desc.buffers.length + desc.textures.length)
  refine ⟨?_, ?_, ?_, ?_, ?_⟩
  · simp [get_bind_group_layout, lA, lB, lC, Nat.add_assoc]
  · intro j e he
    unfold get_bind_group_layout at he
    by_cases hj : j < desc.buffers.length
    · rw [List.getElem?_append_left
          (by rw [List.length_append, lA, lB]; omega),
        List.getElem?_append_left (by rw [lA]; exact hj)] at he
      simpa using
        bufferLayoutEntries_binding desc.visibility desc.buffers 0 j e he
    · by_cases hj2 : j < desc.buffers.length + desc.textures.length
      · rw [List.getElem?_append_left
            (by rw [List.length_append, lA, lB]; omega),
          List.getElem?_append_right (by rw [lA]; omega), lA] at he
        have := textureLayoutEntries_binding desc.visibility desc.textures
          desc.buffers.length (j - desc.buffers.length) e he
        exact ⟨by omega, this.2⟩
      · rw [List.getElem?_append_right
            (by rw [List.length_append, lA, lB]; omega),
          List.length_append, lA, lB] at he
        have := samplerLayoutEntries_binding desc.visibility desc.samplers
          (desc.buffers.length + desc.textures.length)
          (j - (desc.buffers.length + desc.textures.length)) e he
        exact ⟨by omega, this.2⟩
  · intro i b hb
    have hi : i < desc.buffers.length := by
      by_contra hge
      rw [List.getElem?_eq_none (by omega)] at hb
      exact absurd hb (by simp)
    unfold get_bind_group_layout
    rw [List.getElem?_append_left (by rw [List.length_append, lA, lB]; omega),
      List.getElem?_append_left (by rw [lA]; exact hi)]
    simpa using bufferLayoutEntries_get desc.visibility desc.buffers 0 i b hb
  · intro j t ht
    have hj : j < desc.textures.length := by
      by_contra hge
      rw [List.getElem?_eq_none (by omega)] at ht
      exact absurd ht (by simp)
    unfold get_bind_group_layout
    rw [List.getElem?_append_left (by rw [List.length_append, lA, lB]; omega),
      List.getElem?_append_right (by rw [lA]; omega), lA]
    have harith : desc.buffers.length + j - desc.buffers.length = j := by omega
    rw [harith]
    exact textureLayoutEntries_get desc.visibility desc.textures
      desc.buffers.length j t ht
  · intro k sb hs
    unfold get_bind_group_layout
    rw [List.getElem?_append_right
        (by rw [List.length_append, lA, lB]; omega),
      List.length_append, lA, lB]
    have h2 : desc.buffers.length + desc.textures.length + k -
        (desc.buffers.length + desc.textures.length) = k := by omega
    rw [h2]
    exact samplerLayoutEntries_get desc.visibility desc.samplers
      (desc.buffers.length + desc.textures.length) k sb hs

def layoutDescW : BindGroupLayoutDesc :=
  { label := none, visibility := 3, buffers := [16],
    textures := [.depth], samplers := [.Filtering] }

theorem get_bind_group_layout_spec_witness :
    (get_bind_group_layout layoutDescW)[1]? =
      some ⟨1, layoutDescW.visibility, .texture .depth .D2 false⟩ ∧
    (get_bind_group_layout layoutDescW)[2]? =
      some ⟨2, layoutDescW.visibility, .sampler .Filtering⟩ := by
  have h1 := (get_bind_group_layout_spec layoutDescW).2.2.2.1 0 .depth rfl
  have h2 := (get_bind_group_layout_spec layoutDescW).2.2.2.2 0 .Filtering rfl
  constructor
  · simpa using h1
  · simpa using h2

lemma bufferGroupEntries_length :
    ∀ (l : List Handle) (i : Nat), (bufferGroupEntries i l).length = l.length := by
  intro l
  induction l with
  | nil => intro i; rfl
  | cons x rest ih => intro i; simp [bufferGroupEntries, ih]

lemma textureGroupEntries_length :
    ∀ (l : List Handle) (i : Nat), (textureGroupEntries i l).length = l.length := by
  intro l
  induction l with
  | nil => intro i; rfl
  | cons x rest ih => intro i; simp [textureGroupEntries, ih]

lemma samplerGroupEntries_length :
    ∀ (l : List Handle) (i : Nat), (samplerGroupEntries i l).length = l.length := by
  intro l
  induction l with
  | nil => intro i; rfl
  | cons x rest ih => intro i; simp [samplerGroupEntries, ih]

lemma bufferGroupEntries_get :
    ∀ (l : List Handle) (i j : Nat) (hd : Handle), l[j]? = some hd →
      (bufferGroupEntries i l)[j]? = some ⟨i + j, .buffer hd.idx⟩ := by
  intro l
  induction l with
  | nil => intro i j hd hh; simp at hh
  | cons x rest ih =>
    intro i j hd hh
    cases j with
    | zero =>
      simp only [List.getElem?_cons_zero, Option.some.injEq] at hh
      subst hh
      simp [bufferGroupEntries]
    | succ j =>
      rw [List.getElem?_cons_succ] at hh
      have hstep : bufferGroupEntries i (x :: rest) =
          { binding := i, resource := .buffer x.idx } ::
            bufferGroupEntries (i + 1) rest := rfl
      rw [hstep, List.getElem?_cons_succ, ih (i + 1) j hd hh]
      have harith : i + 1 + j = i + (j + 1) := by omega
      rw [harith]

lemma textureGroupEntries_get :
    ∀ (l : List Handle) (i j : Nat) (hd : Handle), l[j]? = some hd →
      (textureGroupEntries i l)[j]? = some ⟨i + j, .textureView hd.idx⟩ := by
  intro l
  induction l with
  | nil => intro i j hd hh; simp at hh
  | cons x rest ih =>
    intro i j hd hh
    cases j with
    | zero =>
      simp only [List.getElem?_cons_zero, Option.some.injEq] at hh
      subst hh
      simp [textureGroupEntries]
    | succ j =>
      rw [List.getElem?_cons_succ] at hh
      have hstep : textureGroupEntries i (x :: rest) =
          { binding := i, resource := .textureView x.idx } ::
            textureGroupEntries (i + 1) rest := rfl
      rw [hstep, List.getElem?_cons_succ, ih (i + 1) j hd hh]
      have harith : i + 1 + j = i + (j + 1) := by omega
      rw [harith]

lemma samplerGroupEntries_get :
    ∀ (l : List Handle) (i j : Nat) (hd : Handle), l[j]? = some hd →
      (samplerGroupEntries i l)[j]? = some ⟨i + j, .sampler hd.idx⟩ := by
  intro l
  induction l with
  | nil => intro i j hd hh; simp at hh
  | cons x rest ih =>
    intro i j hd hh
    cases j with
    | zero =>
      simp only [List.getElem?_cons_zero, Option.some.injEq] at hh
      subst hh
      simp [samplerGroupEntries]
    | succ j =>
      rw [List.getElem?_cons_succ] at hh
      have hstep : samplerGroupEntries i (x :: rest) =
          { binding := i, resource := .sampler x.idx } ::
            samplerGroupEntries (i + 1) rest := rfl
      rw [hstep, List.getElem?_cons_succ, ih (i + 1) j hd hh]
      have harith : i + 1 + j = i + (j + 1) := by omega
      rw [harith]

lemma bufferGroupEntries_binding :
    ∀ (l : List Handle) (i j : Nat) (e : BindGroupEntry),
      (bufferGroupEntries i l)[j]? = some e → e.binding = i + j := by
  intro l
  induction l with
  | nil => intro i j e he; simp [bufferGroupEntries] at he
  | cons x rest ih =>
    intro i j e he
    have hstep : bufferGroupEntries i (x :: rest) =
        { binding := i, resource := .buffer x.idx } ::
          bufferGroupEntries (i + 1) rest := rfl
    cases j with
    | zero =>
      rw [hstep, List.getElem?_cons_zero] at he
      obtain rfl : _ = e := Option.some.inj he
      simp
    | succ j =>
      rw [hstep, List.getElem?_cons_succ] at he
      have := ih (i + 1) j e he
      omega

lemma textureGroupEntries_binding :
    ∀ (l : List Handle) (i j : Nat) (e : BindGroupEntry),
      (textureGroupEntries i l)[j]? = some e → e.binding = i + j := by
  intro l
  induction l with
  | nil => intro i j e he; simp [textureGroupEntries] at he
  | cons x rest ih =>
    intro i j e he
    have hstep : textureGroupEntries i (x :: rest) =
        { binding := i, resource := .textureView x.idx } ::
          textureGroupEntries (i + 1) rest := rfl
    cases j with
    | zero =>
      rw [hstep, List.getElem?_cons_zero] at he
      obtain rfl : _ = e := Option.some.inj he
      simp
    | succ j =>
      rw [hstep, List.getElem?_cons_succ] at he
      have := ih (i + 1) j e he
      omega

lemma samplerGroupEntries_binding :
    ∀ (l : List Handle) (i j : Nat) (e : BindGroupEntry),
      (samplerGroupEntries i l)[j]? = some e → e.binding = i + j := by
  intro l
  induction l with
  | nil => intro i j e he; simp [samplerGroupEntries] at he
  | cons x rest ih =>
    intro i j e he
    have hstep : samplerGroupEntries i (x :: rest) =
        { binding := i, resource := .sampler x.idx } ::
          samplerGroupEntries (i + 1) rest := rfl
    cases j with
    | zero =>
      rw [hstep, List.getElem?_cons_zero] at he
      obtain rfl : _ = e := Option.some.inj he
      simp
    | succ j =>
      rw [hstep, List.getElem?_cons_succ] at he
      have := ih (i + 1) j e he
      omega

lemma bufferLayoutEntries_map_kind (vis : ShaderStages) :
    ∀ (l : List Nat) (i : Nat),
      (bufferLayoutEntries vis i l).map LayoutEntry.kind =
        List.replicate l.length .buf := by
  intro l
  induction l with
  | nil => intro i; rfl
  | cons x rest ih =>
    intro i
    simp [bufferLayoutEntries, ih, LayoutEntry.kind, List.replicate_succ]

lemma textureLayoutEntries_map_kind (vis : ShaderStages) :
    ∀ (l : List TextureSampleType) (i : Nat),
      (textureLayoutEntries vis i l).map LayoutEntry.kind =
        List.replicate l.length .tex := by
  intro l
  induction l with
  | nil => intro i; rfl
  | cons x rest ih =>
    intro i
    simp [textureLayoutEntries, ih, LayoutEntry.kind, List.replicate_succ]

lemma samplerLayoutEntries_map_kind (vis : ShaderStages) :
    ∀ (l : List SamplerBindingType) (i : Nat),
      (samplerLayoutEntries vis i l).map LayoutEntry.kind =
        List.replicate l.length .samp := by
  intro l
  induction l with
  | nil => intro i; rfl
  | cons x rest ih =>
    intro i
    simp [samplerLayoutEntries, ih, LayoutEntry.kind, List.replicate_succ]

lemma bufferGroupEntries_map_kind :
    ∀ (l : List Handle) (i : Nat),
      (bufferGroupEntries i l).map BindGroupEntry.kind =
        List.replicate l.length .buf := by
  intro l
  induction l with
  | nil => intro i; rfl
  | cons x rest ih =>
    intro i
    simp [bufferGroupEntries, ih, BindGroupEntry.kind, List.replicate_succ]

lemma textureGroupEntries_map_kind :
    ∀ (l : List Handle) (i : Nat),
      (textureGroupEntries i l).map BindGroupEntry.kind =
        List.replicate l.length .tex := by
  intro l
  induction l with
  | nil => intro i; rfl
  | cons x rest ih =>
    intro i
    simp [textureGroupEntries, ih, BindGroupEntry.kind, List.replicate_succ]

lemma samplerGroupEntries_map_kind :
    ∀ (l : List Handle) (i : Nat),
      (samplerGroupEntries i l).map BindGroupEntry.kind =
        List.replicate l.length .samp := by
  intro l
  induction l with
  | nil => intro i; rfl
  | cons x rest ih =>
    intro i
    simp [samplerGroupEntries, ih, BindGroupEntry.kind, List.replicate_succ]

lemma allZip_kinds :
    ∀ (L : List LayoutEntry) (E : List BindGroupEntry),
      ((L.zip E).all fun p =>
        p.1.binding = p.2.binding && p.1.kind = p.2.kind) = true →
      L.length = E.length →
      L.map LayoutEntry.kind = E.map BindGroupEntry.kind := by
  intro L
  induction L with
  | nil =>
    intro E hall hlen
    cases E with
    | nil => rfl
    | cons b E' => simp at hlen
  | cons a L' ih =>
    intro E hall hlen
    cases E with
    | nil => simp at hlen
    | cons b E' =>
      simp only [List.zip_cons_cons, List.all_cons, Bool.and_eq_true,
        decide_eq_true_eq] at hall
      obtain ⟨⟨-, hkind⟩, htail⟩ := hall
      simp only [List.length_cons, Nat.add_right_cancel_iff] at hlen
      simp [List.map_cons, hkind, ih E' htail hlen]

lemma allZip_of_bindings :
    ∀ (L : List LayoutEntry) (E : List BindGroupEntry) (i : Nat),
      L.map LayoutEntry.kind = E.map BindGroupEntry.kind →
      (∀ (j : Nat) (e : LayoutEntry), L[j]? = some e → e.binding = i + j) →
      (∀ (j : Nat) (e : BindGroupEntry), E[j]? = some e → e.binding = i + j) →
      ((L.zip E).all fun p =>
        p.1.binding = p.2.binding && p.1.kind = p.2.kind) = true := by
  intro L
  induction L with
  | nil => intro E i hk hL hE; simp
  | cons a L' ih =>
    intro E i hk hL hE
    cases E with
    | nil => simp
    | cons b E' =>
      simp only [List.map_cons, List.cons.injEq] at hk
      obtain ⟨hkhead, hktail⟩ := hk
      have hba : a.binding = i := by
        have := hL 0 a (by simp)
        omega
      have hbb : b.binding = i := by
        have := hE 0 b (by simp)
        omega
      simp only [List.zip_cons_cons, List.all_cons, Bool.and_eq_true,
        decide_eq_true_eq]
      refine ⟨⟨by omega, hkhead⟩, ?_⟩
      refine ih E' (i + 1) hktail ?_ ?_
      · intro j e he
        have := hL (j + 1) e (by rw [List.getElem?_cons_succ]; exact he)
        omega
      · intro j e he
        have := hE (j + 1) e (by rw [List.getElem?_cons_succ]; exact he)
        omega

lemma replicate3_kinds_inj :
    ∀ (a b c x y z : Nat),
      (List.replicate a EntryKind.buf ++ List.replicate b EntryKind.tex) ++
          List.replicate c EntryKind.samp =
        (List.replicate x EntryKind.buf ++ List.replicate y EntryKind.tex) ++
          List.replicate z EntryKind.samp →
      a = x ∧ b = y ∧ c = z := by
  intro a b c x y z heq
  have hbuf := congrArg (List.count EntryKind.buf) heq
  have htex := congrArg (List.count EntryKind.tex) heq
  have hsamp := congrArg (List.count EntryKind.samp) heq
  simp [List.count_append, List.count_replicate] at hbuf htex hsamp
  exact ⟨hbuf, htex, hsamp⟩

lemma groupEntries_length_all (bufs texs samps : List Handle) :
    (bufferGroupEntries 0 bufs ++ textureGroupEntries bufs.length texs ++
      samplerGroupEntries (bufs.length + texs.length) samps).length =
    bufs.length + texs.length + samps.length := by
  simp [bufferGroupEntries_length, textureGroupEntries_length,
    samplerGroupEntries_length, Nat.add_assoc]

lemma get_bind_group_layout_length (d : BindGroupLayoutDesc) :
    (get_bind_group_layout d).length =
      d.buffers.length + d.textures.length + d.samplers.length := by
  simp [get_bind_group_layout, bufferLayoutEntries_length,
    textureLayoutEntries_length, samplerLayoutEntries_length, Nat.add_assoc]

lemma groupEntries_map_kind_all (bufs texs samps : List Handle) :
    (bufferGroupEntries 0 bufs ++ textureGroupEntries bufs.length texs ++
      samplerGroupEntries (bufs.length + texs.length) samps).map
        BindGroupEntry.kind =
    List.replicate bufs.length EntryKind.buf ++
      List.replicate texs.length EntryKind.tex ++
      List.replicate samps.length EntryKind.samp := by
  simp only [List.map_append, bufferGroupEntries_map_kind,
    textureGroupEntries_map_kind, samplerGroupEntries_map_kind]

lemma layout_map_kind_all (d : BindGroupLayoutDesc) :
    (get_bind_group_layout d).map LayoutEntry.kind =
    List.replicate d.buffers.length EntryKind.buf ++
      List.replicate d.textures.length EntryKind.tex ++
      List.replicate d.samplers.length EntryKind.samp := by
  simp only [get_bind_group_layout, List.map_append,
    bufferLayoutEntries_map_kind, textureLayoutEntries_map_kind,
    samplerLayoutEntries_map_kind]

lemma get_bind_group_layout_binding (d : BindGroupLayoutDesc) :
    ∀ (j : Nat) (e : LayoutEntry),
      (get_bind_group_layout d)[j]? = some e → e.binding = j := by
  have lA := bufferLayoutEntries_length d.visibility d.buffers 0
  have lB := textureLayoutEntries_length d.visibility d.textures
    d.buffers.length
  intro j e he
  unfold get_bind_group_layout at he
  by_cases hj : j < d.buffers.length
  · rw [List.getElem?_append_left
        (by rw [List.length_append, lA, lB]; omega),
      List.getElem?_append_left (by rw [lA]; exact hj)] at he
    simpa using
      (bufferLayoutEntries_binding d.visibility d.buffers 0 j e he).1
  · by_cases hj2 : j < d.buffers.length + d.textures.length
    · rw [List.getElem?_append_left
          (by rw [List.length_append, lA, lB]; omega),
        List.getElem?_append_right (by rw [lA]; omega), lA] at he
      have := (textureLayoutEntries_binding d.visibility d.textures
        d.buffers.length (j - d.buffers.length) e he).1
      omega
    · rw [List.getElem?_append_right
          (by rw [List.length_append, lA, lB]; omega),
        List.length_append, lA, lB] at he
      have := (samplerLayoutEntries_binding d.visibility d.samplers
        (d.buffers.length + d.textures.length)
        (j - (d.buffers.length + d.textures.length)) e he).1
      omega

lemma groupEntries_binding_all (bufs texs samps : List Handle) :
    ∀ (j : Nat) (e : BindGroupEntry),
      (bufferGroupEntries 0 bufs ++ textureGroupEntries bufs.length texs ++
        samplerGroupEntries (bufs.length + texs.length) samps)[j]? =
        some e → e.binding = j := by
  have lA := bufferGroupEntries_length bufs 0
  have lB := textureGroupEntries_length texs bufs.length
  intro j e he
  by_cases hj : j < bufs.length
  · rw [List.getElem?_append_left
        (by rw [List.length_append, lA, lB]; omega),
      List.getElem?_append_left (by rw [lA]; exact hj)] at he
    simpa using bufferGroupEntries_binding bufs 0 j e he
  · by_cases hj2 : j < bufs.length + texs.length
    · rw [List.getElem?_append_left
          (by rw [List.length_append, lA, lB]; omega),
        List.getElem?_append_right (by rw [lA]; omega), lA] at he
      have := textureGroupEntries_binding texs bufs.length
        (j - bufs.length) e he
      omega
    · rw [List.getElem?_append_right
          (by rw [List.length_append, lA, lB]; omega),
        List.length_append, lA, lB] at he
      have := samplerGroupEntries_binding samps (bufs.length + texs.length)
        (j - (bufs.length + texs.length)) e he
      omega

/-- The wgpu bind-group validation passes exactly when the three handle
lists have the lengths the layout descriptor declares. -/
lemma validateBindGroup_iff (d : BindGroupLayoutDesc)
    (bufs texs samps : List Handle) :
    validateBindGroup (get_bind_group_layout d)
      (bufferGroupEntries 0 bufs ++ textureGroupEntries bufs.length texs ++
        samplerGroupEntries (bufs.length + texs.length) samps) = true ↔
    (bufs.length = d.buffers.length ∧ texs.length = d.textures.length ∧
      samps.length = d.samplers.length) := by
  constructor
  · intro hv
    simp only [validateBindGroup, Bool.and_eq_true, decide_eq_true_eq] at hv
    obtain ⟨hlen, hzip⟩ := hv
    have hk := allZip_kinds _ _ hzip hlen.symm
    rw [layout_map_kind_all, groupEntries_map_kind_all] at hk
    have h3 := replicate3_kinds_inj _ _ _ _ _ _ hk
    exact ⟨h3.1.symm, h3.2.1.symm, h3.2.2.symm⟩
  · rintro ⟨h1, h2, h3⟩
    simp only [validateBindGroup, Bool.and_eq_true, decide_eq_true_eq]
    constructor
    · rw [groupEntries_length_all, get_bind_group_layout_length, h1, h2, h3]
    · apply allZip_of_bindings _ _ 0
      · rw [layout_map_kind_all, groupEntries_map_kind_all, h1, h2, h3]
      · intro j e he
        have := get_bind_group_layout_binding d j e he
        omega
      · intro j e he
        have := groupEntries_binding_all bufs texs samps j e he
        omega

/-- Claim C4: with every supplied handle index backed by its arena,
create_bind_group succeeds exactly when the three handle lists have the
lengths the layout descriptor declares (a mismatch is the fatal backend
validation error), and on success it appends a bind group whose entry
table binds buffer i at binding i, texture j at binding
(number of buffers + j) and sampler k at binding
(number of buffers + number of textures + k). -/
theorem create_bind_group_spec :
    ∀ (st : RMState) (desc : BindGroupDesc),
      (∀ h ∈ desc.buffers, h.idx < st.buffers.length) →
      (∀ h ∈ desc.textures, h.idx < st.textures.length) →
      (∀ h ∈ desc.samplers, h.idx < st.samplers.length) →
      ((create_bind_group st desc).isSome ↔
        (desc.buffers.length = desc.layout.buffers.length ∧
          desc.textures.length = desc.layout.textures.length ∧
          desc.samplers.length = desc.layout.samplers.length)) ∧
      (desc.buffers.length = desc.layout.buffers.length →
        desc.textures.length = desc.layout.textures.length →
        desc.samplers.length = desc.layout.samplers.length →
        create_bind_group st desc =
          some (⟨st.bind_groups.length, .BINDGROUP⟩,
            { st with bind_groups := (st.bind_groups ++
              [⟨bufferGroupEntries 0 desc.buffers ++
                textureGroupEntries desc.buffers.length desc.textures ++
                samplerGroupEntries
                  (desc.buffers.length + desc.textures.length)
                  desc.samplers⟩]) })) ∧
      (∀ (i : Nat) (bh : Handle), desc.buffers[i]? = some bh →
        (bufferGroupEntries 0 desc.buffers ++
          textureGroupEntries desc.buffers.length desc.textures ++
          samplerGroupEntries (desc.buffers.length + desc.textures.length)
            desc.samplers)[i]? = some ⟨i, .buffer bh.idx⟩) ∧
      (∀ (j : Nat) (th : Handle), desc.textures[j]? = some th →
        (bufferGroupEntries 0 desc.buffers ++
          textureGroupEntries desc.buffers.length desc.textures ++
          samplerGroupEntries (desc.buffers.length + desc.textures.length)
            desc.samplers)[desc.buffers.length + j]? =
          some ⟨desc.buffers.length + j, .textureView th.idx⟩) ∧
      (∀ (k : Nat) (sh2 : Handle), desc.samplers[k]? = some sh2 →
        (bufferGroupEntries 0 desc.buffers ++
          textureGroupEntries desc.buffers.length desc.textures ++
          samplerGroupEntries (desc.buffers.length + desc.textures.length)
            desc.samplers)[desc.buffers.length + desc.textures.length +
              k]? =
          some ⟨desc.buffers.length + desc.textures.length + k,
            .sampler sh2.idx⟩) := by
  intro st desc hbuf htex hsamp
  have lA := bufferGroupEntries_length desc.buffers 0
  have lB := textureGroupEntries_length desc.textures desc.buffers.length
  have hcond : (desc.buffers.all (fun h => h.idx < st.buffers.length) &&
      desc.textures.all (fun h => h.idx < st.textures.length) &&
      desc.samplers.all (fun h => h.idx < st.samplers.length)) = true := by
    simp only [Bool.and_eq_true, List.all_eq_true, decide_eq_true_eq]
    exact ⟨⟨fun h hm => hbuf h hm, fun h hm => htex h hm⟩,
      fun h hm => hsamp h hm⟩
  have hval := validateBindGroup_iff desc.layout desc.buffers desc.textures
    desc.samplers
  refine ⟨?_, ?_, ?_, ?_, ?_⟩
  · unfold create_bind_group
    rw [if_pos hcond]
    dsimp only
    by_cases hv : validateBindGroup (get_bind_group_layout desc.layout)
        (bufferGroupEntries 0 desc.buffers ++
          textureGroupEntries desc.buffers.length desc.textures ++
          samplerGroupEntries (desc.buffers.length + desc.textures.length)
            desc.samplers) = true
    · rw [if_pos hv]
      simpa using hval.mp hv
    · rw [if_neg hv]
      simp only [Option.isSome_none, Bool.false_eq_true, false_iff]
      intro hl
      exact hv (hval.mpr hl)
  · intro h1 h2 h3
    unfold create_bind_group
    rw [if_pos hcond]
    dsimp only
    rw [if_pos (hval.mpr ⟨h1, h2, h3⟩)]
    simp [List.length_append]
  · intro i bh hget
    have hi : i < desc.buffers.length := by
      by_contra hge
      rw [List.getElem?_eq_none (by omega)] at hget
      exact absurd hget (by simp)
    rw [List.getElem?_append_left
        (by rw [List.length_append, lA, lB]; omega),
      List.getElem?_append_left (by rw [lA]; exact hi)]
    simpa using bufferGroupEntries_get desc.buffers 0 i bh hget
  · intro j th hget
    have hj : j < desc.textures.length := by
      by_contra hge
      rw [List.getElem?_eq_none (by omega)] at hget
      exact absurd hget (by simp)
    rw [List.getElem?_append_left
        (by rw [List.length_append, lA, lB]; omega),
      List.getElem?_append_right (by rw [lA]; omega), lA]
    have harith : desc.buffers.length + j - desc.buffers.length = j := by
      omega
    rw [harith]
    exact textureGroupEntries_get desc.textures desc.buffers.length j th hget
  · intro k sh2 hget
    rw [List.getElem?_append_right
        (by rw [List.length_append, lA, lB]; omega),
      List.length_append, lA, lB]
    have harith : desc.buffers.length + desc.textures.length + k -
        (desc.buffers.length + desc.textures.length) = k := by omega
    rw [harith]
    exact samplerGroupEntries_get desc.samplers
      (desc.buffers.length + desc.textures.length) k sh2 hget

def layoutDescW4 : BindGroupLayoutDesc :=
  { label := none, visibility := 3, buffers := [16], textures := [],
    samplers := [] }

def bindGroupDescW : BindGroupDesc :=
  { label := none, visibility := 3, layout := layoutDescW4,
    buffers := [⟨0, .BUFFER⟩], textures := [], samplers := [] }

theorem create_bind_group_spec_witness :
    create_bind_group { RMState.init with buffers := [bufferW] }
        bindGroupDescW =
      some (⟨0, .BINDGROUP⟩,
        { RMState.init with
            buffers := [bufferW], bind_groups := [⟨[⟨0, .buffer 0⟩]⟩] }) := by
  have h :=
    (create_bind_group_spec { RMState.init with buffers := [bufferW] }
      bindGroupDescW (by decide) (by decide) (by decide)).2.1 rfl rfl rfl
  rw [h]
  rfl

lemma specHandlesAux_le :
    ∀ (ops : List CreateOp) (counts : HandleType → Nat) (h : Handle),
      h ∈ specHandlesAux counts ops → counts h.ty ≤ h.idx := by
  intro ops
  induction ops with
  | nil => intro counts h hm; simp [specHandlesAux] at hm
  | cons op ops ih =>
    intro counts h hm
    have hstep : specHandlesAux counts (op :: ops) =
        ⟨counts op.kind, op.kind⟩ ::
          specHandlesAux
            (fun k => if k = op.kind then counts k + 1 else counts k) ops :=
      rfl
    rw [hstep, List.mem_cons] at hm
    rcases hm with rfl | hm
    · simp
    · have hle := ih _ h hm
      simp only at hle
      by_cases hk : h.ty = op.kind
      · rw [if_pos hk] at hle
        omega
      · rwa [if_neg hk] at hle

lemma specHandlesAux_pairwise :
    ∀ (ops : List CreateOp) (counts : HandleType → Nat),
      List.Pairwise (fun a b => a.ty = b.ty → a.idx ≠ b.idx)
        (specHandlesAux counts ops) := by
  intro ops
  induction ops with
  | nil => intro counts; exact List.Pairwise.nil
  | cons op ops ih =>
    intro counts
    have hstep : specHandlesAux counts (op :: ops) =
        ⟨counts op.kind, op.kind⟩ ::
          specHandlesAux
            (fun k => if k = op.kind then counts k + 1 else counts k) ops :=
      rfl
    rw [hstep]
    refine List.Pairwise.cons ?_ (ih _)
    intro b hb hty
    have hle := specHandlesAux_le ops _ b hb
    simp only at hty hle ⊢
    have hc : b.ty = op.kind := hty.symm
    rw [if_pos hc, hc] at hle
    omega

lemma specHandlesAux_get :
    ∀ (ops : List CreateOp) (counts : HandleType → Nat) (i : Nat)
      (op : CreateOp), ops[i]? = some op →
      (specHandlesAux counts ops)[i]? =
        some ⟨counts op.kind +
          (ops.take i).countP (fun o => o.kind = op.kind), op.kind⟩ := by
  intro ops
  induction ops with
  | nil => intro counts i op hop; simp at hop
  | cons op0 ops ih =>
    intro counts i op hop
    have hstep : specHandlesAux counts (op0 :: ops) =
        ⟨counts op0.kind, op0.kind⟩ ::
          specHandlesAux
            (fun k => if k = op0.kind then counts k + 1 else counts k) ops :=
      rfl
    cases i with
    | zero =>
      simp only [List.getElem?_cons_zero, Option.some.injEq] at hop
      subst hop
      simp [hstep]
    | succ i =>
      rw [List.getElem?_cons_succ] at hop
      rw [hstep, List.getElem?_cons_succ, ih _ i op hop]
      have hidx : (if op.kind = op0.kind then counts op.kind + 1
            else counts op.kind) +
          (ops.take i).countP (fun o => o.kind = op.kind) =
          counts op.kind +
            ((op0 :: ops).take (i + 1)).countP
              (fun o => o.kind = op.kind) := by
        rw [List.take_succ_cons]
        by_cases hk : op0.kind = op.kind
        · have hs1 : (if op.kind = op0.kind then counts op.kind + 1
              else counts op.kind) = counts op.kind + 1 := if_pos hk.symm
          have hs2 : (op0 :: ops.take i).countP
                (fun o => o.kind = op.kind) =
              (ops.take i).countP (fun o => o.kind = op.kind) + 1 := by
            simp [List.countP_cons, hk]
          rw [hs1, hs2]
          omega
        · have hs1 : (if op.kind = op0.kind then counts op.kind + 1
              else counts op.kind) = counts op.kind :=
            if_neg (Ne.symm hk)
          have hs2 : (op0 :: ops.take i).countP
                (fun o => o.kind = op.kind) =
              (ops.take i).countP (fun o => o.kind = op.kind) := by
            simp [List.countP_cons, hk]
          rw [hs1, hs2]
      rw [hidx]

lemma runCreates_handles (fs : FileSystem) (v : Validator) :
    ∀ (ops : List CreateOp) (st : RMState) (hs : List Handle)
      (stf : RMState), runCreates fs v st ops = some (hs, stf) →
      hs = specHandlesAux (fun k => arenaLen k st) ops := by
  intro ops
  induction ops with
  | nil =>
    intro st hs stf heq
    simp only [runCreates, Option.some.injEq, Prod.mk.injEq] at heq
    exact heq.1.symm
  | cons op ops ih =>
    intro st hs stf heq
    unfold runCreates at heq
    split at heq
    · exact absurd heq (by simp)
    · rename_i h st' h1
      split at heq
      · exact absurd heq (by simp)
      · rename_i hs' stf' h2
        simp only [Option.some.injEq, Prod.mk.injEq] at heq
        obtain ⟨hhs, -⟩ := heq
        obtain ⟨hh, hbump⟩ := runCreate_step fs v st op h st' h1
        have hfun : (fun k => arenaLen k st') =
            (fun k => if k = op.kind then arenaLen k st + 1
              else arenaLen k st) := funext fun k => hbump k
        have hstep : specHandlesAux (fun k => arenaLen k st) (op :: ops) =
            ⟨arenaLen op.kind st, op.kind⟩ ::
              specHandlesAux
                (fun k => if k = op.kind then arenaLen k st + 1
                  else arenaLen k st) ops := rfl
        rw [← hhs, hstep, ← hfun, ← ih st' hs' stf' h2, hh]

/-- Claim C2: a run of create_* calls on a fresh manager returns, for the
i-th call, a handle tagged with the kind of that call whose index is the
number of earlier calls of the same kind (so indices per kind are
0,1,2,...), and two calls of the same kind never receive the same
index. specHandles is the spec-side description of this allocation. -/
theorem create_handles_monotonic :
    ∀ (fs : FileSystem) (v : Validator) (ops : List CreateOp)
      (hs : List Handle) (stf : RMState),
      runCreates fs v RMState.init ops = some (hs, stf) →
      hs = specHandles ops ∧
      (∀ (i : Nat) (op : CreateOp), ops[i]? = some op →
        hs[i]? = some ⟨(ops.take i).countP (fun o => o.kind = op.kind),
          op.kind⟩) ∧
      List.Pairwise (fun a b => a.ty = b.ty → a.idx ≠ b.idx) hs := by
  intro fs v ops hs stf heq
  have h0 : (fun k => arenaLen k RMState.init) = (fun _ => (0 : Nat)) :=
    funext fun k => by cases k <;> rfl
  have hhs := runCreates_handles fs v ops RMState.init hs stf heq
  rw [h0] at hhs
  refine ⟨hhs, ?_, ?_⟩
  · intro i op hop
    rw [hhs]
    simpa using specHandlesAux_get ops (fun _ => 0) i op hop
  · rw [hhs]
    exact specHandlesAux_pairwise ops (fun _ => 0)

theorem create_handles_monotonic_witness :
    ([⟨0, HandleType.BUFFER⟩, ⟨1, HandleType.BUFFER⟩] : List Handle) =
      specHandles [CreateOp.buffer bufferDescW,
        CreateOp.buffer bufferDescW] ∧
    List.Pairwise (fun a b => a.ty = b.ty → a.idx ≠ b.idx)
      ([⟨0, HandleType.BUFFER⟩, ⟨1, HandleType.BUFFER⟩] : List Handle) := by
  have h := create_handles_monotonic fsW valW
    [CreateOp.buffer bufferDescW, CreateOp.buffer bufferDescW]
    [⟨0, .BUFFER⟩, ⟨1, .BUFFER⟩]
    { RMState.init with buffers := [bufferW, bufferW] } rfl
  exact ⟨h.1, h.2.2⟩

/-- Claim C1: for a shader handle populated by create_shader (so its
retained descriptor passed the same-file check), once the source re-read
succeeds, recompile has exactly two outcomes. Trial compile reports a
validation error: the diagnostic string is set to that message and the
state is otherwise untouched — in particular the arena entry at the
handle index, its pipeline and retained descriptor, stays as it was. No
error: the diagnostic string is cleared and the entry is replaced in
place (same index, same kind) by a shader rebuilt by Shader::new from the
retained descriptor, which it carries unchanged. -/
theorem recompile_two_outcomes :
    ∀ (fs : FileSystem) (validate : Validator) (st : RMState) (h : Handle)
      (shader : Shader) (source : String),
      st.shaders[h.idx]? = some shader →
      mixedFilePair shader.desc = false →
      fs shader.desc.vs.path = some source →
      (∀ err, validate source = some err →
        recompile fs validate st h =
          some { st with shader_compilation_error := err }) ∧
      (validate source = none →
        shaderNew fs validate shader.desc ≠ none ∧
        ∀ sh, shaderNew fs validate shader.desc = some sh →
          sh.desc = shader.desc ∧
          recompile fs validate st h =
            some { st with shader_compilation_error := "", shaders := st.shaders.set h.idx sh }) := by
  intro fs validate st h shader source hget hmix hfs
  constructor
  · intro err hverr
    simp [recompile, hget, hfs, hverr]
  · intro hvnone
    constructor
    · simp [shaderNew, hmix, hfs, hvnone]
    · intro sh hsh
      constructor
      · have hx := hsh
        simp only [shaderNew, hmix, Bool.false_eq_true, if_false, hfs,
          hvnone, Option.some.injEq] at hx
        rw [← hx]
      · simp [recompile, hget, hfs, hvnone, hsh]

theorem recompile_two_outcomes_witness :
    recompile fsW valW { RMState.init with shaders := [shaderW] }
      ⟨0, .SHADER⟩ = some { RMState.init with shaders := [shaderW] } := by
  have h := recompile_two_outcomes fsW valW
    { RMState.init with shaders := [shaderW] } ⟨0, .SHADER⟩ shaderW "code"
    rfl rfl (by decide)
  have h2 := (h.2 rfl).2 shaderW (by decide)
  exact h2.2

end RM
